import Mathlib

/-!
Verification of the example connectors in `fivetran/fivetran_custom_sdk`.

The development embeds, faithfully to the Python sources:
  * `examples/multiple_code_files/timestamp_serializer.py` — the class
    `TimestampSerializer` (`TIMESTAMP_FORMATS`, `parse_timestamp`, `serialize`);
  * `examples/local/connector.py` — `SOURCE_DATA` and the cursor-based `update`;
  * `examples/key_based_replication/connector.py` — `dt2str` and its `update`;
  * `examples/multiple_code_files/connector.py` — its `update`.

`datetime.strptime` is modelled at the precision CPython's `_strptime` gives
for the two format strings used by the repository: `%Y` matches exactly four
digits, `%m %d %H %M %S` match one or two digits within the regex's value
range, the literal space matches one or more whitespace characters, trailing
input is rejected, and the final `datetime` construction validates the
calendar date (raising `ValueError`, which the caller's loop treats exactly
like a regex mismatch).
-/

/-- One decimal digit as a character; defined for values below 10. -/
def digitVal (c : Char) : Nat := c.toNat - 48

/-- Decimal value of a digit string, most significant first. -/
def natOfDigits (ds : List Char) : Nat := ds.foldl (fun a c => a * 10 + digitVal c) 0

/-- Split a character list into its leading run of ASCII digits and the rest.
Models what a greedy digit-matching regex consumes. -/
def takeDigits : List Char → List Char × List Char
  | [] => ([], [])
  | c :: cs =>
    if c.isDigit then
      let p := takeDigits cs
      (c :: p.1, p.2)
    else ([], c :: cs)

/-- Whitespace as matched by Python's regex `\s` on ASCII input. -/
def isPySpace (c : Char) : Bool :=
  c = ' ' || c = '\t' || c = '\n' || c = '\r' || c.toNat = 11 || c.toNat = 12

/-- Split a character list into its leading run of whitespace and the rest. -/
def takeSpaces : List Char → List Char × List Char
  | [] => ([], [])
  | c :: cs =>
    if isPySpace c then
      let p := takeSpaces cs
      (c :: p.1, p.2)
    else ([], c :: cs)

/-- The numeric directives appearing in the repository's format strings. -/
inductive NumField where
  | Y | m | d | H | M | S
deriving DecidableEq

/-- Lower bound accepted by CPython's regex fragment for each directive. -/
def NumField.lo : NumField → Nat
  | .Y => 0
  | .m => 1
  | .d => 1
  | .H => 0
  | .M => 0
  | .S => 0

/-- Upper bound accepted by CPython's regex fragment for each directive
(`%S` admits 60 and 61 at the regex stage; the `datetime` constructor
rejects them later). -/
def NumField.hi : NumField → Nat
  | .Y => 9999
  | .m => 12
  | .d => 31
  | .H => 23
  | .M => 59
  | .S => 61

/-- The fields captured while matching a format string. -/
structure Fields where
  Y : Nat := 0
  m : Nat := 0
  d : Nat := 0
  H : Nat := 0
  M : Nat := 0
  S : Nat := 0
deriving DecidableEq

/-- Record a captured numeric field. -/
def setF : NumField → Nat → Fields → Fields
  | .Y, v, f => { f with Y := v }
  | .m, v, f => { f with m := v }
  | .d, v, f => { f with d := v }
  | .H, v, f => { f with H := v }
  | .M, v, f => { f with M := v }
  | .S, v, f => { f with S := v }

/-- A compiled piece of a `strptime` format string: a numeric directive, a
literal character, or the format's whitespace (compiled by CPython to `\s+`). -/
inductive Directive where
  | num : NumField → Directive
  | lit : Char → Directive
  | ws : Directive

/-- Match a compiled format against the input, anchored at the start and
requiring the whole input to be consumed (CPython raises
`unconverted data remains` otherwise).  For the repository's two formats every
token following a numeric directive rejects a digit, so the regex alternation
`two digits, else one` never succeeds through its one-digit branch when two
digits are present; matching the maximal digit run is therefore exact. -/
def matchFmt : List Directive → List Char → Fields → Option Fields
  | [], [], f => some f
  | [], _ :: _, _ => none
  | .num nf :: fmt, s, f =>
    let p := takeDigits s
    if nf = NumField.Y then
      if p.1.length < 4 then none
      else matchFmt fmt (p.1.drop 4 ++ p.2) (setF nf (natOfDigits (p.1.take 4)) f)
    else
      if p.1.length = 0 ∨ 2 < p.1.length then none
      else
        let v := natOfDigits p.1
        if nf.lo ≤ v ∧ v ≤ nf.hi then matchFmt fmt p.2 (setF nf v f) else none
  | .lit _ :: _, [], _ => none
  | .lit c :: fmt, c' :: s, f => if c' = c then matchFmt fmt s f else none
  | .ws :: fmt, s, f =>
    let p := takeSpaces s
    if p.1.length = 0 then none else matchFmt fmt p.2 f

/-- A parsed date-time, as carried by a Python `datetime` with no `tzinfo`
and zero microseconds (which is what `strptime` yields for these formats). -/
structure DateTime where
  year : Nat
  month : Nat
  day : Nat
  hour : Nat
  minute : Nat
  second : Nat
deriving DecidableEq

/-- Gregorian leap-year rule, as used by Python's `datetime`. -/
def isLeapYear (y : Nat) : Bool := (y % 4 = 0 && y % 100 ≠ 0) || y % 400 = 0

/-- Days in a month of the proleptic Gregorian calendar. -/
def daysInMonth (y mo : Nat) : Nat :=
  if mo = 2 then (if isLeapYear y then 29 else 28)
  else if mo = 4 ∨ mo = 6 ∨ mo = 9 ∨ mo = 11 then 30
  else 31

/-- The checks of the `datetime` constructor (`MINYEAR = 1`, `MAXYEAR = 9999`,
valid month, day within the month, and time-of-day ranges); `none` models the
`ValueError` it raises. -/
def mkDatetime (f : Fields) : Option DateTime :=
  if 1 ≤ f.Y ∧ f.Y ≤ 9999 ∧ 1 ≤ f.m ∧ f.m ≤ 12 ∧ 1 ≤ f.d ∧ f.d ≤ daysInMonth f.Y f.m
      ∧ f.H ≤ 23 ∧ f.M ≤ 59 ∧ f.S ≤ 59 then
    some ⟨f.Y, f.m, f.d, f.H, f.M, f.S⟩
  else none

/-- `datetime.strptime(s, fmt)`: regex match, then `datetime` construction;
`none` models the `ValueError` raised on either failure. -/
def strptime (s : String) (fmt : List Directive) : Option DateTime :=
  (matchFmt fmt s.data {}).bind mkDatetime

/-- Zero-padded two-digit decimal rendering (`%02d`). -/
def pad2 (n : Nat) : List Char := [Nat.digitChar (n / 10), Nat.digitChar (n % 10)]

/-- Zero-padded four-digit decimal rendering (`%04d`). -/
def pad4 (n : Nat) : List Char :=
  [Nat.digitChar (n / 1000), Nat.digitChar (n / 100 % 10),
   Nat.digitChar (n / 10 % 10), Nat.digitChar (n % 10)]

instance {ε α : Type} [DecidableEq ε] [DecidableEq α] : DecidableEq (Except ε α)
  | .ok a, .ok b =>
    if h : a = b then .isTrue (by rw [h]) else .isFalse (by intro he; cases he; exact h rfl)
  | .ok _, .error _ => .isFalse (by intro he; cases he)
  | .error _, .ok _ => .isFalse (by intro he; cases he)
  | .error e, .error e' =>
    if h : e = e' then .isTrue (by rw [h]) else .isFalse (by intro he; cases he; exact h rfl)

namespace TimestampSerializer

/-- The compiled form of a format string `%Y<sep>%m<sep>%d %H:%M:%S`. -/
def fmtWithSep (sep : Char) : List Directive :=
  [.num .Y, .lit sep, .num .m, .lit sep, .num .d, .ws,
   .num .H, .lit ':', .num .M, .lit ':', .num .S]

/-- `TimestampSerializer.TIMESTAMP_FORMATS`: `%Y/%m/%d %H:%M:%S` then
`%Y-%m-%d %H:%M:%S`, in that order. -/
def TIMESTAMP_FORMATS : List (List Directive) := [fmtWithSep '/', fmtWithSep '-']

/-- The `for fmt in cls.TIMESTAMP_FORMATS` loop: return the first successful
parse, trying the next format whenever `strptime` raises. -/
def tryFormats : List (List Directive) → String → Option DateTime
  | [], _ => none
  | fmt :: rest, s =>
    match strptime s fmt with
    | some dt => some dt
    | none => tryFormats rest s

/-- `TimestampSerializer.parse_timestamp`. -/
def parse_timestamp (timestamp_str : String) : Except String DateTime :=
  match tryFormats TIMESTAMP_FORMATS timestamp_str with
  | some dt => Except.ok dt
  | none => Except.error ("Timestamp format not recognized: " ++ timestamp_str)

/-- `datetime.isoformat()` for a value with no `tzinfo` and zero microseconds:
`YYYY-MM-DDTHH:MM:SS`, with no timezone offset appended. -/
def isoformat (dt : DateTime) : String :=
  ⟨pad4 dt.year ++ '-' :: (pad2 dt.month ++ '-' :: (pad2 dt.day ++ 'T' ::
    (pad2 dt.hour ++ ':' :: (pad2 dt.minute ++ ':' :: pad2 dt.second))))⟩

/-- `TimestampSerializer.serialize`: parse, then reformat as ISO-8601. -/
def serialize (timestamp : String) : Except String String :=
  (parse_timestamp timestamp).map isoformat

end TimestampSerializer

/-- The class attribute `TIMESTAMP_FORMATS` is the only state a call can see;
`parse_timestamp` is embedded as a store-passing procedure over it, the store
it returns being the store after the call (the body contains no assignment). -/
def TimestampSerializer.parse_timestampProc (store : List (List Directive))
    (timestamp_str : String) : Except String DateTime × List (List Directive) :=
  (match TimestampSerializer.tryFormats store timestamp_str with
   | some dt => Except.ok dt
   | none => Except.error ("Timestamp format not recognized: " ++ timestamp_str), store)

/-- `serialize` as a store-passing procedure over the class attribute. -/
def TimestampSerializer.serializeProc (store : List (List Directive))
    (timestamp : String) : Except String String × List (List Directive) :=
  let r := TimestampSerializer.parse_timestampProc store timestamp
  (r.1.map TimestampSerializer.isoformat, r.2)

/-- A scalar cell of a row or of a state dictionary. -/
inductive Value where
  | int : Int → Value
  | str : String → Value
deriving DecidableEq

/-- A Python dict with string keys, in insertion order. -/
abbrev Dict := List (String × Value)

/-- `k in d` / `d[k]`: the value bound to a key, if present. -/
def dictGet (d : Dict) (k : String) : Option Value :=
  (d.find? (fun p => p.1 = k)).map (fun p => p.2)

/-- `d[k] = v`: replace the binding in place when the key is present,
append it otherwise (Python dicts keep insertion order). -/
def dictSet : Dict → String → Value → Dict
  | [], k, v => [(k, v)]
  | (k', v') :: rest, k, v =>
    if k' = k then (k, v) :: rest else (k', v') :: dictSet rest k v

/-- The operations an `update` generator yields to the host. -/
inductive Op where
  | upsert (table : String) (data : Dict)
  | checkpoint (state : Dict)
deriving DecidableEq

/-- Python `l[i]`: non-negative indices from the front, negative indices from
the back, `none` for the `IndexError` raised outside either range. -/
def pyGet {α : Type} (l : List α) (i : Int) : Option α :=
  if 0 ≤ i then l.get? i.toNat
  else
    let j : Int := (l.length : Int) + i
    if 0 ≤ j then l.get? j.toNat else none

namespace LocalExample

/-- `SOURCE_DATA` of `examples/local/connector.py`. -/
def SOURCE_DATA : List Dict :=
  [[("id", .int 10), ("message", .str "Hello world")],
   [("id", .int 20), ("message", .str "Hello again")],
   [("id", .int 30), ("message", .str "Good bye")]]

/-- The local example's `update(configuration, state)`: read the cursor
(default 0), fetch `SOURCE_DATA[cursor]`, yield one upsert and one checkpoint.
`none` models the uncaught exception when the index is out of range (there is
no bounds check) or the cursor is not an integer. -/
def update (configuration state : Dict) : Option (List Op) :=
  let cursor : Value :=
    match dictGet state "cursor" with
    | some v => v
    | none => .int 0
  match cursor with
  | .int n =>
    match pyGet SOURCE_DATA n with
    | some row => some [.upsert "hello_world" row, .checkpoint [("cursor", .int (n + 1))]]
    | none => none
  | .str _ => none

end LocalExample

namespace KeyBasedReplication

/-- A row fetched from the `customers` table of the external DuckDB file. -/
structure CustRow where
  customer_id : Int
  first_name : String
  last_name : String
  email : String
  updated_at : DateTime
deriving DecidableEq

/-- `dt2str`: `strftime` with the module's `timestamp_format`
`%Y-%m-%dT%H:%M:%SZ`. -/
def dt2str (incoming : DateTime) : String :=
  ⟨pad4 incoming.year ++ '-' :: (pad2 incoming.month ++ '-' :: (pad2 incoming.day ++ 'T' ::
    (pad2 incoming.hour ++ ':' :: (pad2 incoming.minute ++ ':' ::
      (pad2 incoming.second ++ ['Z'])))))⟩

/-- The dict the loop body passes to `op.upsert` for one row. -/
def rowData (row : CustRow) : Dict :=
  [("customer_id", .int row.customer_id), ("first_name", .str row.first_name),
   ("last_name", .str row.last_name), ("email", .str row.email),
   ("updated_at", .str (dt2str row.updated_at))]

/-- The `for row in result` loop: yield one upsert per row and rebind
`last_synced` to `dt2str(row[4])` each iteration; returns the yielded
operations and the final value of `last_synced`. -/
def syncLoop (last_synced : Value) : List CustRow → List Op × Value
  | [] => ([], last_synced)
  | row :: rest =>
    let p := syncLoop (.str (dt2str row.updated_at)) rest
    (Op.upsert "customers" (rowData row) :: p.1, p.2)

/-- The key-based-replication `update(configuration, state)`.  The parameter
`result` stands for `conn.execute(query).fetchall()`: the DuckDB database file
is external to the repository, so the fetched rows — which the query restricts
to `updated_at > last_synced`, ordered by `updated_at` — are a parameter of
the embedding.  After the loop the code does `state["last_synced"] = ...` and
checkpoints that same dict. -/
def update (result : List CustRow) (configuration state : Dict) : List Op :=
  let last_synced : Value :=
    match dictGet state "last_synced" with
    | some v => v
    | none => .str "2024-01-01T00:00:00Z"
  let p := syncLoop last_synced result
  p.1 ++ [Op.checkpoint (dictSet state "last_synced" p.2)]

/-- The incoming `last_synced`: the state's binding, or the default used on
the first sync. -/
def initLS (state : Dict) : Value :=
  match dictGet state "last_synced" with
  | some v => v
  | none => .str "2024-01-01T00:00:00Z"

/-- The value of `last_synced` once the row loop has finished. -/
def finalLS (state : Dict) (result : List CustRow) : Value :=
  (syncLoop (initLS state) result).2

end KeyBasedReplication

/-- Strictly monotone numeric key realizing the chronological order of valid
date-times; stands for the SQL engine's timestamp comparison. -/
def dtKey (d : DateTime) : Nat :=
  ((((d.year * 13 + d.month) * 32 + d.day) * 24 + d.hour) * 60 + d.minute) * 60 + d.second

namespace MultipleCodeFiles

/-- A yielded operation of this connector; its `update` passes the string
returned by `serialize` directly as the upsert's `data` argument. -/
inductive OpS where
  | upsert (table : String) (data : String)
deriving DecidableEq

/-- The first triple-quoted `input_json` literal of
`examples/multiple_code_files/connector.py`, whitespace included. -/
def input_json1 : String :=
  "\n        \x7b\n            \"name\": \"Event1\",\n            \"timestamp\": \"2024/09/24 14:30:45\"\n        \x7d\n        "

/-- The second triple-quoted `input_json` literal, whitespace included. -/
def input_json2 : String :=
  "\n            \x7b\n                \"name\": \"Event2\",\n                \"timestamp\": \"2024-09-24 10:30:45\"\n            \x7d\n            "

/-- This connector's `update(configuration, state)`: each `serialize` call is
evaluated while building the argument of the next `yield`, so an error stops
the generator before that upsert; the result pairs the operations actually
yielded with the error (if any) that escaped. -/
def update (configuration state : Dict) : List OpS × Option String :=
  match TimestampSerializer.serialize input_json1 with
  | .error e => ([], some e)
  | .ok v1 =>
    match TimestampSerializer.serialize input_json2 with
    | .error e => ([.upsert "event" v1], some e)
    | .ok v2 => ([.upsert "event" v1, .upsert "event" v2], none)

end MultipleCodeFiles

/-- Spec-side description of the input language: a string "matching the
format `YYYY<sep>MM<sep>DD HH:MM:SS`" is the canonical zero-padded rendering
of its six field values. -/
def render (sep : Char) (dt : DateTime) : String :=
  ⟨pad4 dt.year ++ sep :: (pad2 dt.month ++ sep :: (pad2 dt.day ++ ' ' ::
    (pad2 dt.hour ++ ':' :: (pad2 dt.minute ++ ':' :: pad2 dt.second))))⟩

/-- Field values valid as a calendar date and time-of-day (within the range
Python's `datetime` can represent). -/
def validDateTime (dt : DateTime) : Prop :=
  1 ≤ dt.year ∧ dt.year ≤ 9999 ∧ 1 ≤ dt.month ∧ dt.month ≤ 12 ∧ 1 ≤ dt.day ∧
    dt.day ≤ daysInMonth dt.year dt.month ∧ dt.hour ≤ 23 ∧ dt.minute ≤ 59 ∧ dt.second ≤ 59

instance (dt : DateTime) : Decidable (validDateTime dt) := by
  unfold validDateTime; infer_instance

/-- The first character, if any, is not a digit. -/
def headNotDigit : List Char → Prop
  | [] => True
  | c :: _ => c.isDigit = false

/-- The first character, if any, is not whitespace. -/
def headNotSpace : List Char → Prop
  | [] => True
  | c :: _ => isPySpace c = false

lemma digitChar_isDigit (n : Nat) (h : n < 10) : (Nat.digitChar n).isDigit = true := by
  interval_cases n <;> decide

lemma digitVal_digitChar (n : Nat) (h : n < 10) : digitVal (Nat.digitChar n) = n := by
  interval_cases n <;> decide

lemma digitChar_not_space (n : Nat) (h : n < 10) : isPySpace (Nat.digitChar n) = false := by
  interval_cases n <;> decide

lemma takeDigits_nodigit (l : List Char) (h : headNotDigit l) : takeDigits l = ([], l) := by
  cases l with
  | nil => rfl
  | cons c cs =>
    have hc : c.isDigit = false := h
    simp [takeDigits, hc]

lemma takeDigits_append (ds rest : List Char) (hds : ∀ c ∈ ds, c.isDigit = true)
    (h : headNotDigit rest) : takeDigits (ds ++ rest) = (ds, rest) := by
  induction ds with
  | nil => simpa using takeDigits_nodigit rest h
  | cons c cs ih =>
    have hc : c.isDigit = true := hds c (by simp)
    have hcs := ih (fun x hx => hds x (by simp [hx]))
    simp [takeDigits, hc, hcs]

lemma takeSpaces_single (rest : List Char) (h : headNotSpace rest) :
    takeSpaces (' ' :: rest) = ([' '], rest) := by
  cases rest with
  | nil => rfl
  | cons c cs =>
    have hc : isPySpace c = false := h
    have h0 : isPySpace ' ' = true := by decide
    simp [takeSpaces, h0, hc]

lemma pad2_digits (v : Nat) (h : v ≤ 99) : ∀ c ∈ pad2 v, c.isDigit = true := by
  intro c hc
  simp [pad2] at hc
  rcases hc with rfl | rfl
  · exact digitChar_isDigit _ (by omega)
  · exact digitChar_isDigit _ (Nat.mod_lt _ (by norm_num))

lemma pad4_digits (v : Nat) (h : v ≤ 9999) : ∀ c ∈ pad4 v, c.isDigit = true := by
  intro c hc
  simp [pad4] at hc
  rcases hc with rfl | rfl | rfl | rfl
  · exact digitChar_isDigit _ (by omega)
  · exact digitChar_isDigit _ (Nat.mod_lt _ (by norm_num))
  · exact digitChar_isDigit _ (Nat.mod_lt _ (by norm_num))
  · exact digitChar_isDigit _ (Nat.mod_lt _ (by norm_num))

lemma natOfDigits_pad2 (v : Nat) (h : v ≤ 99) : natOfDigits (pad2 v) = v := by
  simp [natOfDigits, pad2]
  rw [digitVal_digitChar _ (by omega), digitVal_digitChar _ (Nat.mod_lt _ (by norm_num))]
  omega

lemma natOfDigits_pad4 (v : Nat) (h : v ≤ 9999) : natOfDigits (pad4 v) = v := by
  simp [natOfDigits, pad4]
  rw [digitVal_digitChar _ (by omega), digitVal_digitChar _ (Nat.mod_lt _ (by norm_num)),
    digitVal_digitChar _ (Nat.mod_lt _ (by norm_num)),
    digitVal_digitChar _ (Nat.mod_lt _ (by norm_num))]
  omega

lemma headNotSpace_pad2 (v : Nat) (h : v ≤ 99) (rest : List Char) :
    headNotSpace (pad2 v ++ rest) := by
  show isPySpace (Nat.digitChar (v / 10)) = false
  exact digitChar_not_space _ (by omega)

lemma matchFmt_Y (fmt : List Directive) (v : Nat) (rest : List Char) (f : Fields)
    (h : v ≤ 9999) (hrest : headNotDigit rest) :
    matchFmt (.num .Y :: fmt) (pad4 v ++ rest) f = matchFmt fmt rest (setF .Y v f) := by
  have ht := takeDigits_append (pad4 v) rest (pad4_digits v h) hrest
  have h4 : (pad4 v).length = 4 := rfl
  have hdrop : (pad4 v).drop 4 = [] := rfl
  have htake : (pad4 v).take 4 = pad4 v := rfl
  simp only [matchFmt, ht, h4, hdrop, htake, natOfDigits_pad4 v h]
  simp

lemma matchFmt_num2 (nf : NumField) (hnf : ¬ nf = NumField.Y) (fmt : List Directive)
    (v : Nat) (rest : List Char) (f : Fields) (hlo : nf.lo ≤ v) (hhi : v ≤ nf.hi)
    (hrest : headNotDigit rest) :
    matchFmt (.num nf :: fmt) (pad2 v ++ rest) f = matchFmt fmt rest (setF nf v f) := by
  have h99 : v ≤ 99 := by
    cases nf <;> first
      | exact absurd rfl hnf
      | (simp only [NumField.hi] at hhi; omega)
  have ht := takeDigits_append (pad2 v) rest (pad2_digits v h99) hrest
  have h2 : (pad2 v).length = 2 := rfl
  simp only [matchFmt, ht, h2, natOfDigits_pad2 v h99]
  simp [hnf, hlo, hhi]

lemma matchFmt_lit (c : Char) (fmt : List Directive) (s : List Char) (f : Fields) :
    matchFmt (.lit c :: fmt) (c :: s) f = matchFmt fmt s f := by
  simp [matchFmt]

lemma matchFmt_lit_ne (c c' : Char) (hne : ¬ c' = c) (fmt : List Directive)
    (s : List Char) (f : Fields) :
    matchFmt (.lit c :: fmt) (c' :: s) f = none := by
  simp [matchFmt, hne]

lemma matchFmt_ws (fmt : List Directive) (rest : List Char) (f : Fields)
    (h : headNotSpace rest) :
    matchFmt (.ws :: fmt) (' ' :: rest) f = matchFmt fmt rest f := by
  simp [matchFmt, takeSpaces_single rest h]

lemma daysInMonth_le_31 (y mo : Nat) : daysInMonth y mo ≤ 31 := by
  unfold daysInMonth
  split
  · split <;> omega
  · split <;> omega

lemma headNotDigit_cons (c : Char) (l : List Char) (h : c.isDigit = false) :
    headNotDigit (c :: l) := h

lemma matchFmt_num2_last (nf : NumField) (hnf : ¬ nf = NumField.Y) (v : Nat) (f : Fields)
    (hlo : nf.lo ≤ v) (hhi : v ≤ nf.hi) :
    matchFmt [.num nf] (pad2 v) f = some (setF nf v f) := by
  simpa using matchFmt_num2 nf hnf [] v [] f hlo hhi trivial

lemma strptime_render (dt : DateTime) (sep : Char) (hv : validDateTime dt)
    (hd : sep.isDigit = false) :
    strptime (render sep dt) (TimestampSerializer.fmtWithSep sep) = some dt := by
  obtain ⟨h1, h2, h3, h4, h5, h6, h7, h8, h9⟩ := hv
  show (matchFmt (TimestampSerializer.fmtWithSep sep)
      (pad4 dt.year ++ sep :: (pad2 dt.month ++ sep :: (pad2 dt.day ++ ' ' ::
        (pad2 dt.hour ++ ':' :: (pad2 dt.minute ++ ':' :: pad2 dt.second))))) {}).bind
      mkDatetime = some dt
  rw [TimestampSerializer.fmtWithSep]
  rw [matchFmt_Y _ dt.year _ _ (by omega) (headNotDigit_cons _ _ hd)]
  rw [matchFmt_lit]
  rw [matchFmt_num2 .m (by decide) _ dt.month _ _ h3 h4 (headNotDigit_cons _ _ hd)]
  rw [matchFmt_lit]
  rw [matchFmt_num2 .d (by decide) _ dt.day _ _ h5 (h6.trans (daysInMonth_le_31 _ _))
    (headNotDigit_cons _ _ (by decide))]
  rw [matchFmt_ws _ _ _ (headNotSpace_pad2 dt.hour (by omega) _)]
  rw [matchFmt_num2 .H (by decide) _ dt.hour _ _ (Nat.zero_le _) h7
    (headNotDigit_cons _ _ (by decide))]
  rw [matchFmt_lit]
  rw [matchFmt_num2 .M (by decide) _ dt.minute _ _ (Nat.zero_le _) h8
    (headNotDigit_cons _ _ (by decide))]
  rw [matchFmt_lit]
  rw [matchFmt_num2_last .S (by decide) dt.second _ (Nat.zero_le _) (h9.trans (by decide))]
  show mkDatetime ⟨dt.year, dt.month, dt.day, dt.hour, dt.minute, dt.second⟩ = some dt
  simp [mkDatetime, h1, h2, h3, h4, h5, h6, h7, h8, h9]

lemma strptime_render_dash_slash (dt : DateTime) (h : dt.year ≤ 9999) :
    strptime (render '-' dt) (TimestampSerializer.fmtWithSep '/') = none := by
  show (matchFmt (TimestampSerializer.fmtWithSep '/')
      (pad4 dt.year ++ '-' :: (pad2 dt.month ++ '-' :: (pad2 dt.day ++ ' ' ::
        (pad2 dt.hour ++ ':' :: (pad2 dt.minute ++ ':' :: pad2 dt.second))))) {}).bind
      mkDatetime = none
  rw [TimestampSerializer.fmtWithSep]
  rw [matchFmt_Y _ dt.year _ _ h (headNotDigit_cons _ _ (by decide))]
  rw [matchFmt_lit_ne '/' '-' (by decide)]
  rfl

/-- C1: every string matching `YYYY/MM/DD HH:MM:SS` or `YYYY-MM-DD HH:MM:SS`
whose field values form a valid calendar date and time-of-day is serialized
to the ISO-8601 string carrying the same fields, with no timezone offset
appended. -/
theorem C1_serialize_normalizes (dt : DateTime) (sep : Char) (hv : validDateTime dt)
    (hsep : sep = '/' ∨ sep = '-') :
    TimestampSerializer.serialize (render sep dt) =
      Except.ok (TimestampSerializer.isoformat dt) := by
  have hy : dt.year ≤ 9999 := hv.2.1
  rcases hsep with rfl | rfl
  · have h1 := strptime_render dt '/' hv (by decide)
    simp [TimestampSerializer.serialize, TimestampSerializer.parse_timestamp,
      TimestampSerializer.tryFormats, TimestampSerializer.TIMESTAMP_FORMATS, h1, Except.map]
  · have h0 := strptime_render_dash_slash dt hy
    have h1 := strptime_render dt '-' hv (by decide)
    simp [TimestampSerializer.serialize, TimestampSerializer.parse_timestamp,
      TimestampSerializer.tryFormats, TimestampSerializer.TIMESTAMP_FORMATS, h0, h1, Except.map]

theorem C1_serialize_normalizes_witness :
    validDateTime ⟨2024, 9, 24, 14, 30, 45⟩ ∧
    TimestampSerializer.serialize (render '/' ⟨2024, 9, 24, 14, 30, 45⟩) =
      Except.ok (TimestampSerializer.isoformat ⟨2024, 9, 24, 14, 30, 45⟩) :=
  ⟨by decide, C1_serialize_normalizes ⟨2024, 9, 24, 14, 30, 45⟩ '/' (by decide) (Or.inl rfl)⟩

/-- C3: `parse_timestamp` fails with the "format not recognized" error
carrying the input exactly when both format attempts fail, and returns a
parsed value whenever at least one format matches. -/
theorem C3_error_iff_both_fail (s : String) :
    (TimestampSerializer.parse_timestamp s =
        Except.error ("Timestamp format not recognized: " ++ s) ↔
      strptime s (TimestampSerializer.fmtWithSep '/') = none ∧
        strptime s (TimestampSerializer.fmtWithSep '-') = none) ∧
    ((strptime s (TimestampSerializer.fmtWithSep '/')).isSome ∨
        (strptime s (TimestampSerializer.fmtWithSep '-')).isSome →
      ∃ dt, TimestampSerializer.parse_timestamp s = Except.ok dt) := by
  rcases h1 : strptime s (TimestampSerializer.fmtWithSep '/') with _ | dt1 <;>
    rcases h2 : strptime s (TimestampSerializer.fmtWithSep '-') with _ | dt2 <;>
    simp [TimestampSerializer.parse_timestamp, TimestampSerializer.tryFormats,
      TimestampSerializer.TIMESTAMP_FORMATS, h1, h2]

theorem C3_error_iff_both_fail_witness :
    ∃ dt, TimestampSerializer.parse_timestamp "2024/09/24 14:30:45" = Except.ok dt :=
  (C3_error_iff_both_fail "2024/09/24 14:30:45").2 (Or.inl (by decide))

/-- C4: on `"2024-13-01 10:30:45"` (invalid month 13) `serialize` raises the
defined error and returns no value. -/
theorem C4_invalid_month_errors :
    TimestampSerializer.serialize "2024-13-01 10:30:45" =
      Except.error "Timestamp format not recognized: 2024-13-01 10:30:45" := by decide

/-- C5: the two formats are attempted in the fixed order slash-then-dash: the
first successful parse is returned, and the dash format matters only when the
slash format fails. -/
theorem C5_format_order (s : String) :
    TimestampSerializer.TIMESTAMP_FORMATS =
      [TimestampSerializer.fmtWithSep '/', TimestampSerializer.fmtWithSep '-'] ∧
    (∀ dt, strptime s (TimestampSerializer.fmtWithSep '/') = some dt →
      TimestampSerializer.parse_timestamp s = Except.ok dt) ∧
    (strptime s (TimestampSerializer.fmtWithSep '/') = none →
      TimestampSerializer.parse_timestamp s =
        match strptime s (TimestampSerializer.fmtWithSep '-') with
        | some dt => Except.ok dt
        | none => Except.error ("Timestamp format not recognized: " ++ s)) := by
  refine ⟨rfl, ?_, ?_⟩
  · intro dt h
    simp [TimestampSerializer.parse_timestamp, TimestampSerializer.tryFormats,
      TimestampSerializer.TIMESTAMP_FORMATS, h]
  · intro h
    rcases h2 : strptime s (TimestampSerializer.fmtWithSep '-') with _ | dt <;>
      simp [TimestampSerializer.parse_timestamp, TimestampSerializer.tryFormats,
        TimestampSerializer.TIMESTAMP_FORMATS, h, h2]

theorem C5_format_order_witness :
    TimestampSerializer.parse_timestamp "2024/09/24 14:30:45" =
      Except.ok ⟨2024, 9, 24, 14, 30, 45⟩ :=
  (C5_format_order "2024/09/24 14:30:45").2.1 ⟨2024, 9, 24, 14, 30, 45⟩ (by decide)

/-- C6: the two concrete scenarios of the spec: `"2024/09/24 14:30:45"` maps
to `"2024-09-24T14:30:45"` and `"2024-09-24 10:30:45"` to
`"2024-09-24T10:30:45"`. -/
theorem C6_concrete_scenarios :
    TimestampSerializer.serialize "2024/09/24 14:30:45" =
        Except.ok "2024-09-24T14:30:45" ∧
      TimestampSerializer.serialize "2024-09-24 10:30:45" =
        Except.ok "2024-09-24T10:30:45" :=
  ⟨by decide, by decide⟩

/-- C8: `serialize` is a pure, deterministic function of its input given the
static format list: a call leaves the class attribute `TIMESTAMP_FORMATS`
unchanged, a second call on the same input returns the same result, and the
store-passing procedure agrees with the pure function. -/
theorem C8_serialize_pure (s : String) :
    (TimestampSerializer.serializeProc TimestampSerializer.TIMESTAMP_FORMATS s).2 =
      TimestampSerializer.TIMESTAMP_FORMATS ∧
    TimestampSerializer.serializeProc
        (TimestampSerializer.serializeProc TimestampSerializer.TIMESTAMP_FORMATS s).2 s =
      TimestampSerializer.serializeProc TimestampSerializer.TIMESTAMP_FORMATS s ∧
    (TimestampSerializer.serializeProc TimestampSerializer.TIMESTAMP_FORMATS s).1 =
      TimestampSerializer.serialize s :=
  ⟨rfl, rfl, rfl⟩

/-- C9: for every configuration and state, the multiple_code_files update
passes the whole JSON document to the serializer, which rejects it, so the
generator fails before its first yield and emits zero operations. -/
theorem C9_update_errors_before_upsert (configuration state : Dict) :
    MultipleCodeFiles.update configuration state =
      ([], some ("Timestamp format not recognized: " ++ MultipleCodeFiles.input_json1)) :=
  rfl

lemma dictGet_cons_eq (p : String × Value) (d : Dict) (k : String) (h : p.1 = k) :
    dictGet (p :: d) k = some p.2 := by
  simp [dictGet, List.find?, h]

lemma dictGet_cons_ne (p : String × Value) (d : Dict) (k : String) (h : ¬ p.1 = k) :
    dictGet (p :: d) k = dictGet d k := by
  simp [dictGet, List.find?, h]

lemma dictGet_dictSet_self (d : Dict) (k : String) (v : Value) :
    dictGet (dictSet d k v) k = some v := by
  induction d with
  | nil => simp [dictSet, dictGet, List.find?]
  | cons p rest ih =>
    by_cases h : p.1 = k
    · simp [dictSet, h, dictGet, List.find?]
    · rw [show dictSet (p :: rest) k v = p :: dictSet rest k v by simp [dictSet, h]]
      rw [dictGet_cons_ne p _ k h, ih]

lemma dictGet_dictSet_ne (d : Dict) (k k' : String) (v : Value) (h : ¬ k' = k) :
    dictGet (dictSet d k v) k' = dictGet d k' := by
  have h' : ¬ k = k' := fun heq => h heq.symm
  induction d with
  | nil =>
    rw [show dictSet [] k v = [(k, v)] from rfl]
    rw [dictGet_cons_ne _ _ _ h']
  | cons p rest ih =>
    by_cases hp : p.1 = k
    · rw [show dictSet (p :: rest) k v = (k, v) :: rest by simp [dictSet, hp]]
      rw [dictGet_cons_ne _ _ _ h', dictGet_cons_ne p _ _ (by rw [hp]; exact h')]
    · rw [show dictSet (p :: rest) k v = p :: dictSet rest k v by simp [dictSet, hp]]
      by_cases hp' : p.1 = k'
      · rw [dictGet_cons_eq _ _ _ hp', dictGet_cons_eq _ _ _ hp']
      · rw [dictGet_cons_ne _ _ _ hp', dictGet_cons_ne _ _ _ hp', ih]

lemma dictSet_dictSet (d : Dict) (k : String) (v w : Value) :
    dictSet (dictSet d k v) k w = dictSet d k w := by
  induction d with
  | nil => simp [dictSet]
  | cons p rest ih =>
    by_cases h : p.1 = k
    · simp [dictSet, h]
    · simp [dictSet, h, ih]

lemma get?_some_of_lt {α : Type} (l : List α) (i : Nat) (h : i < l.length) :
    ∃ x, l.get? i = some x := by
  induction l generalizing i with
  | nil => simp at h
  | cons a as ih =>
    cases i with
    | zero => exact ⟨a, rfl⟩
    | succ j => exact ih j (by simpa using h)

lemma get?_none_of_le {α : Type} (l : List α) (i : Nat) (h : l.length ≤ i) :
    l.get? i = none := by
  induction l generalizing i with
  | nil => rfl
  | cons a as ih =>
    cases i with
    | zero => simp at h
    | succ j => exact ih j (by simpa using h)

lemma pairwise_le_last {α : Type} (key : α → Nat) :
    ∀ (l : List α) (last : α), l.Pairwise (fun a b => key a ≤ key b) →
      l.getLast? = some last → ∀ r ∈ l, key r ≤ key last := by
  intro l
  induction l with
  | nil => intro last _ h; simp at h
  | cons a as ih =>
    intro last hp hl r hr
    rcases List.pairwise_cons.mp hp with ⟨ha, has⟩
    cases as with
    | nil =>
      simp at hl
      simp at hr
      subst hl; subst hr
      exact Nat.le_refl _
    | cons b bs =>
      rw [List.getLast?_cons_cons] at hl
      rcases List.mem_cons.mp hr with rfl | hr2
      · exact ha last (List.mem_of_mem_getLast? (Option.mem_def.mpr hl))
      · exact ih last has hl r hr2

lemma syncLoop_fst (ls : Value) (rows : List KeyBasedReplication.CustRow) :
    (KeyBasedReplication.syncLoop ls rows).1 =
      rows.map (fun r => Op.upsert "customers" (KeyBasedReplication.rowData r)) := by
  induction rows generalizing ls with
  | nil => rfl
  | cons r rs ih => simp [KeyBasedReplication.syncLoop, ih]

lemma syncLoop_snd (ls : Value) (rows : List KeyBasedReplication.CustRow) :
    (KeyBasedReplication.syncLoop ls rows).2 =
      match rows.getLast? with
      | some r => Value.str (KeyBasedReplication.dt2str r.updated_at)
      | none => ls := by
  induction rows generalizing ls with
  | nil => rfl
  | cons r rs ih =>
    cases rs with
    | nil => simp [KeyBasedReplication.syncLoop]
    | cons r2 rs2 =>
      rw [List.getLast?_cons_cons]
      show (KeyBasedReplication.syncLoop
        (Value.str (KeyBasedReplication.dt2str r.updated_at)) (r2 :: rs2)).2 = _
      rw [ih]
      rcases hgl : (r2 :: rs2).getLast? with _ | g
      · exact absurd (List.getLast?_eq_none_iff.mp hgl) (by simp)
      · rfl

/-- C2: with an integer cursor `n`, `0 ≤ n < length SOURCE_DATA`, the local
update yields exactly one upsert carrying row `n` into `hello_world` followed
by exactly one checkpoint `{cursor: n+1}`; at `n ≥ length SOURCE_DATA` the
missing bounds check makes the call fail before yielding anything. -/
theorem C2_local_cursor (configuration state : Dict) (n : Int)
    (hc : dictGet state "cursor" = some (Value.int n)) :
    (0 ≤ n → n < (LocalExample.SOURCE_DATA.length : Int) →
      ∃ row, LocalExample.SOURCE_DATA.get? n.toNat = some row ∧
        LocalExample.update configuration state =
          some [Op.upsert "hello_world" row,
            Op.checkpoint [("cursor", Value.int (n + 1))]]) ∧
    ((LocalExample.SOURCE_DATA.length : Int) ≤ n →
      LocalExample.update configuration state = none) := by
  have hlen : LocalExample.SOURCE_DATA.length = 3 := rfl
  constructor
  · intro h0 hlt
    rw [hlen] at hlt
    have hn : n.toNat < LocalExample.SOURCE_DATA.length := by rw [hlen]; omega
    obtain ⟨row, hrow⟩ := get?_some_of_lt _ _ hn
    have hrow' : LocalExample.SOURCE_DATA[n.toNat]? = some row := by
      rw [← List.get?_eq_getElem?]; exact hrow
    exact ⟨row, hrow, by simp [LocalExample.update, hc, pyGet, h0, hrow']⟩
  · intro hge
    rw [hlen] at hge
    have h0 : (0 : Int) ≤ n := by omega
    have hnone : LocalExample.SOURCE_DATA[n.toNat]? = none := by
      rw [← List.get?_eq_getElem?]
      exact get?_none_of_le _ _ (by rw [hlen]; omega)
    simp [LocalExample.update, hc, pyGet, h0, hnone]

theorem C2_local_cursor_witness :
    ∃ row, LocalExample.SOURCE_DATA.get? (Int.toNat 1) = some row ∧
      LocalExample.update [] [("cursor", Value.int 1)] =
        some [Op.upsert "hello_world" row,
          Op.checkpoint [("cursor", Value.int (1 + 1))]] :=
  (C2_local_cursor [] [("cursor", Value.int 1)] 1 (by decide)).1 (by decide) (by decide)

/-- C7: absent state keys take the per-connector default: without a "cursor"
key the local update behaves as if the cursor were 0, and without a
"last_synced" key the key-based-replication update behaves as if it were
"2024-01-01T00:00:00Z". -/
theorem C7_state_defaults :
    (∀ configuration state, dictGet state "cursor" = none →
      LocalExample.update configuration state =
        LocalExample.update configuration (dictSet state "cursor" (Value.int 0))) ∧
    (∀ result configuration state, dictGet state "last_synced" = none →
      KeyBasedReplication.update result configuration state =
        KeyBasedReplication.update result configuration
          (dictSet state "last_synced" (Value.str "2024-01-01T00:00:00Z"))) := by
  constructor
  · intro configuration state h
    simp [LocalExample.update, h, dictGet_dictSet_self]
  · intro result configuration state h
    simp [KeyBasedReplication.update, h, dictGet_dictSet_self, dictSet_dictSet]

theorem C7_state_defaults_witness :
    LocalExample.update [] [] =
      LocalExample.update [] (dictSet [] "cursor" (Value.int 0)) :=
  C7_state_defaults.1 [] [] (by decide)

/-- C10: the key-based-replication update yields one upsert per queried row,
in query order, then exactly one checkpoint; the checkpointed dict is the
caller's state with "last_synced" set to the string form of the last (and
maximum) row's `updated_at` — or kept at the incoming value when no row
qualifies — every other key of the state unchanged; as the query returns only
rows past the cutoff, the cursor never moves backward. -/
theorem C10_kbr_checkpoint (result : List KeyBasedReplication.CustRow)
    (configuration state : Dict) (cutoff : DateTime)
    (hwhere : ∀ r ∈ result, dtKey cutoff < dtKey r.updated_at)
    (horder : result.Pairwise (fun a b => dtKey a.updated_at ≤ dtKey b.updated_at)) :
    KeyBasedReplication.update result configuration state =
      result.map (fun r => Op.upsert "customers" (KeyBasedReplication.rowData r)) ++
        [Op.checkpoint (dictSet state "last_synced"
          (KeyBasedReplication.finalLS state result))] ∧
    (result = [] →
      KeyBasedReplication.finalLS state result = KeyBasedReplication.initLS state) ∧
    (∀ last, result.getLast? = some last →
      KeyBasedReplication.finalLS state result =
          Value.str (KeyBasedReplication.dt2str last.updated_at) ∧
        (∀ r ∈ result, dtKey r.updated_at ≤ dtKey last.updated_at) ∧
        dtKey cutoff < dtKey last.updated_at) ∧
    dictGet (dictSet state "last_synced" (KeyBasedReplication.finalLS state result))
        "last_synced" = some (KeyBasedReplication.finalLS state result) ∧
    (∀ k, ¬ k = "last_synced" →
      dictGet (dictSet state "last_synced" (KeyBasedReplication.finalLS state result)) k =
        dictGet state k) := by
  refine ⟨?_, ?_, ?_, dictGet_dictSet_self state "last_synced" _,
    fun k hk => dictGet_dictSet_ne state "last_synced" k _ hk⟩
  · simp [KeyBasedReplication.update, KeyBasedReplication.finalLS,
      KeyBasedReplication.initLS, syncLoop_fst]
  · intro h; subst h; rfl
  · intro last hl
    have hmem : last ∈ result := List.mem_of_mem_getLast? (Option.mem_def.mpr hl)
    refine ⟨?_, fun r hr => pairwise_le_last _ result last horder hl r hr,
      hwhere last hmem⟩
    show (KeyBasedReplication.syncLoop (KeyBasedReplication.initLS state) result).2 = _
    rw [syncLoop_snd, hl]

theorem C10_kbr_checkpoint_witness :
    KeyBasedReplication.update
        [⟨2, "Joe", "Doe", "joe@fivetran.com", ⟨2024, 1, 31, 23, 4, 39⟩⟩] [] [] =
      [(⟨2, "Joe", "Doe", "joe@fivetran.com", ⟨2024, 1, 31, 23, 4, 39⟩⟩ :
          KeyBasedReplication.CustRow)].map
          (fun r => Op.upsert "customers" (KeyBasedReplication.rowData r)) ++
        [Op.checkpoint (dictSet [] "last_synced"
          (KeyBasedReplication.finalLS []
            [⟨2, "Joe", "Doe", "joe@fivetran.com", ⟨2024, 1, 31, 23, 4, 39⟩⟩]))] :=
  (C10_kbr_checkpoint [⟨2, "Joe", "Doe", "joe@fivetran.com", ⟨2024, 1, 31, 23, 4, 39⟩⟩]
    [] [] ⟨2024, 1, 1, 0, 0, 0⟩ (by decide) (by simp)).1
